import Mathlib

/-!
Verification of the M5Core2 Koshi Chime per-frame physics/collision/audio loop
(`src/M5Core2-KoshiChime.ino`).  The per-tick `loop` body (IMU read, velocity
integration, friction, speed clamp, Euler position update, circular wall
constraint, rod-collision detection with debounce, note emission, rod bounce,
and glow decay) is embedded shallowly over `ℝ`; machine `unsigned long`
timestamps become `ℕ` (with C truncated subtraction matching `Nat.sub` on
monotone clocks), and the `uint8_t` narrowing cast in the velocity computation
becomes `Int.floor` followed by reduction mod 256.

The source computes rod angles with the literal `3.14159f`, not an exact `π`;
the embedding keeps that literal, so rod coordinates are only approximately
the exact ring positions, and concrete scenario proofs use interval bounds
derived from `|3.14159 - π| < 3e-6`.
-/

namespace KoshiChime

/-! ## Constants (lines 61-68, 92-96 of the source) -/

def TUBE_R : ℝ := 65
def ROD_ORBIT : ℝ := 55
def BALL_R : ℝ := 10
def HIT_DIST : ℝ := 24
def ROD_DEBOUNCE : ℕ := 80
def GRAVITY_SCALE : ℝ := 120
def FRICTION : ℝ := 0.97
def MAX_SPEED : ℝ := 20
def ROD_BOUNCE : ℝ := 2

/-- `max_dist = TUBE_R - BALL_R - 4` (line 192), the wall-constraint bound. -/
def max_dist : ℝ := TUBE_R - BALL_R - 4

/-! ## Chime note tables (lines 44-53), MIDI note numbers. -/

def chime_notes : Fin 4 → Fin 8 → ℕ :=
  ![![55, 60, 64, 67, 71, 76, 79, 83],
    ![57, 62, 65, 69, 72, 76, 81, 84],
    ![57, 60, 64, 69, 71, 76, 81, 84],
    ![55, 59, 62, 67, 69, 74, 79, 81]]

/-- `current_chime = (ChimeType)((current_chime + 1) % 4)` (line 161, BtnC). -/
def nextChime (c : Fin 4) : Fin 4 := ⟨(c.val + 1) % 4, Nat.mod_lt _ (by norm_num)⟩

/-- `current_chime = (ChimeType)((current_chime + 3) % 4)` (line 149, BtnA). -/
def prevChime (c : Fin 4) : Fin 4 := ⟨(c.val + 3) % 4, Nat.mod_lt _ (by norm_num)⟩

/-! ## Rod geometry (setup, lines 127-133).  The source uses the literal
`3.14159f` in place of `π`. -/

noncomputable def rodAngle (i : Fin 8) : ℝ := (i.val : ℝ) * 3.14159 * 2 / 8 - 3.14159 / 2

noncomputable def rod_fx (i : Fin 8) : ℝ := Real.cos (rodAngle i) * ROD_ORBIT

noncomputable def rod_fy (i : Fin 8) : ℝ := Real.sin (rodAngle i) * ROD_ORBIT

/-- Euclidean distance from the ball position to rod `i` (lines 210-212). -/
noncomputable def rodDist (x y : ℝ) (i : Fin 8) : ℝ :=
  Real.sqrt ((x - rod_fx i) * (x - rod_fx i) + (y - rod_fy i) * (y - rod_fy i))

/-! ## Data model -/

/-- The mutable globals the tick loop owns (lines 55, 87, 90-91, 99-100). -/
@[ext] structure KState where
  current_chime : Fin 4
  ball_x : ℝ
  ball_y : ℝ
  ball_vx : ℝ
  ball_vy : ℝ
  cal_ax : ℝ
  cal_ay : ℝ
  rod_last_hit : Fin 8 → ℕ
  rod_glow : Fin 8 → ℕ

/-- One `synth.setNoteOn(0, note, velocity)` call (line 223), tagged with the
rod index that produced it. -/
@[ext] structure StrikeEvent where
  rod : Fin 8
  note : ℕ
  vel : ℕ
deriving DecidableEq

/-- Position and velocity after the pure ball-physics phase. -/
@[ext] structure PosVel where
  x : ℝ
  y : ℝ
  vx : ℝ
  vy : ℝ

/-- Accumulator threaded through the rod-collision loop (lines 209-233). -/
@[ext] structure RodLoopSt where
  ball_vx : ℝ
  ball_vy : ℝ
  rod_last_hit : Fin 8 → ℕ
  rod_glow : Fin 8 → ℕ
  events : List StrikeEvent

/-! ## Operations -/

/-- Note velocity from impact speed (lines 220-221):
`uint8_t velocity = (uint8_t)(30 + hit_speed * 5); if (velocity > 127) velocity = 127;`.
The narrowing cast is modelled as floor followed by reduction mod 256. -/
noncomputable def noteVelocity (s : ℝ) : ℕ :=
  if (⌊(30 : ℝ) + s * 5⌋ % 256).toNat > 127 then 127
  else (⌊(30 : ℝ) + s * 5⌋ % 256).toNat

/-- Speed clamp (lines 180-184). -/
noncomputable def clampSpeed (vx vy : ℝ) : ℝ × ℝ :=
  let speed := Real.sqrt (vx * vx + vy * vy)
  if speed > MAX_SPEED then (vx / speed * MAX_SPEED, vy / speed * MAX_SPEED)
  else (vx, vy)

/-- Wall constraint: radial projection plus reflected, halved velocity
(lines 190-205). -/
noncomputable def wallConstrain (x y vx vy : ℝ) : PosVel :=
  let dist_from_center := Real.sqrt (x * x + y * y)
  if dist_from_center > max_dist then
    let nx := x / dist_from_center
    let ny := y / dist_from_center
    let dot := vx * nx + vy * ny
    ⟨nx * max_dist, ny * max_dist,
     (vx - 2 * dot * nx) * 0.5, (vy - 2 * dot * ny) * 0.5⟩
  else ⟨x, y, vx, vy⟩

/-- The strike condition of line 214:
`d < HIT_DIST && (now - rod_last_hit[i]) > ROD_DEBOUNCE`. -/
def strikeQ (now : ℕ) (lastHit : Fin 8 → ℕ) (x y : ℝ) (i : Fin 8) : Prop :=
  rodDist x y i < HIT_DIST ∧ now - lastHit i > ROD_DEBOUNCE

noncomputable instance (now : ℕ) (lastHit : Fin 8 → ℕ) (x y : ℝ) (i : Fin 8) :
    Decidable (strikeQ now lastHit x y i) := by
  unfold strikeQ; infer_instance

/-- One iteration of the rod-collision loop body (lines 209-233). -/
noncomputable def processRod (c : Fin 4) (now : ℕ) (x y : ℝ)
    (st : RodLoopSt) (i : Fin 8) : RodLoopSt :=
  let dx := x - rod_fx i
  let dy := y - rod_fy i
  let d := rodDist x y i
  if strikeQ now st.rod_last_hit x y i then
    let hit_speed := Real.sqrt (st.ball_vx * st.ball_vx + st.ball_vy * st.ball_vy)
    let velocity := noteVelocity hit_speed
    let note := chime_notes c i
    let st1 : RodLoopSt :=
      { st with rod_last_hit := Function.update st.rod_last_hit i now,
                rod_glow := Function.update st.rod_glow i 15,
                events := st.events ++ [⟨i, note, velocity⟩] }
    if d > 0.1 then
      { st1 with ball_vx := dx / d * ROD_BOUNCE, ball_vy := dy / d * ROD_BOUNCE }
    else st1
  else st

/-- The whole rod-collision loop (lines 209-233). -/
noncomputable def rodPass (c : Fin 4) (now : ℕ) (x y vx vy : ℝ)
    (lastHit glow : Fin 8 → ℕ) : RodLoopSt :=
  (List.finRange 8).foldl (processRod c now x y) ⟨vx, vy, lastHit, glow, []⟩

/-- Ball-physics phase of one tick (lines 165-205): tilt integration,
friction, speed clamp, Euler position update, wall constraint. -/
noncomputable def ballPhase (s : KState) (ax ay : ℝ) : PosVel :=
  let vx1 := s.ball_vx - (ax - s.cal_ax) * GRAVITY_SCALE * 0.02
  let vy1 := s.ball_vy + (ay - s.cal_ay) * GRAVITY_SCALE * 0.02
  let vx2 := vx1 * FRICTION
  let vy2 := vy1 * FRICTION
  let v3 := clampSpeed vx2 vy2
  wallConstrain (s.ball_x + v3.1) (s.ball_y + v3.2) v3.1 v3.2

/-- Glow decay in `drawUpdate` (lines 324-329): decrement only when
strictly positive. -/
def drawUpdateGlow (glow : Fin 8 → ℕ) : Fin 8 → ℕ :=
  fun i => if glow i > 0 then glow i - 1 else glow i

/-- One full tick of `loop` (lines 165-238, buttons aside): physics, rod
collisions with note emission, glow decay.  Returns the new state and the
emitted note-on events in emission order. -/
noncomputable def stepFull (s : KState) (ax ay : ℝ) (now : ℕ) :
    KState × List StrikeEvent :=
  let w := ballPhase s ax ay
  let r := rodPass s.current_chime now w.x w.y w.vx w.vy s.rod_last_hit s.rod_glow
  (⟨s.current_chime, w.x, w.y, r.ball_vx, r.ball_vy, s.cal_ax, s.cal_ay,
    r.rod_last_hit, drawUpdateGlow r.rod_glow⟩, r.events)

/-! ## Scenario states -/

/-- Ball at rest at the center, calibration zero, no prior hits
(the state right after `drawFullScreen`/calibration, lines 156-157, 277-280). -/
def sZero : KState :=
  ⟨0, 0, 0, 0, 0, 0, 0, fun _ => 0, fun _ => 0⟩

/-- Scenario A run (claim C7): start from `sZero` and tick with raw tilt
`(0,0)` (equal to the calibration offset, hence calibrated tilt `(0,0)`);
`millis()` advances by the 20 ms tick budget. -/
noncomputable def run : ℕ → KState
  | 0 => sZero
  | n + 1 => (stepFull (run n) 0 0 (20 * (n + 1))).1

/-- A state whose ball sits at `(0,-51)` at rest: 4 px from rod 0, inside the
hit threshold. -/
def s9 : KState :=
  ⟨0, 0, -51, 0, 0, 0, 0, fun _ => 0, fun _ => 0⟩

/-- Two-rod tick, run A: ball reaches `(19,-47)` with velocity `(10,0)` at
collision time; no rod was hit recently, so rod 0 fires before rod 1. -/
noncomputable def c4A : KState :=
  ⟨0, 9, -47, 1000 / 97, 0, 0, 0, fun _ => 0, fun _ => 0⟩

/-- Two-rod tick, run B: identical to `c4A` except rod 0 was last hit at
950 ms, so at `now = 1000` rod 0 is still debounced and does not fire. -/
noncomputable def c4B : KState :=
  ⟨0, 9, -47, 1000 / 97, 0, 0, 0, fun i => if i = 0 then 950 else 0, fun _ => 0⟩

/-- A rod-loop accumulator with the ball at rest and no prior hits. -/
def rls0 : RodLoopSt := ⟨0, 0, fun _ => 0, fun _ => 0, []⟩

/-! ## Claim C5: chime selection wraps circularly -/

/-- Claim C5: applying the next-chime selection four times returns the active
variant index to its original value for every starting index in 0..3; the
index wraps circularly under both next (`(i+1) % 4`) and previous
(`(i+3) % 4`), and previous inverts next. -/
theorem chime_select_round_trip :
    ∀ c : Fin 4,
      nextChime (nextChime (nextChime (nextChime c))) = c ∧
      prevChime (prevChime (prevChime (prevChime c))) = c ∧
      prevChime (nextChime c) = c ∧ nextChime (prevChime c) = c := by
  decide

/-! ## Norm helper lemmas -/

lemma sqrt_sum_sq_nonneg (x y : ℝ) : 0 ≤ x * x + y * y :=
  add_nonneg (mul_self_nonneg x) (mul_self_nonneg y)

lemma mul_self_sqrt_sum (x y : ℝ) :
    Real.sqrt (x * x + y * y) * Real.sqrt (x * x + y * y) = x * x + y * y :=
  Real.mul_self_sqrt (sqrt_sum_sq_nonneg x y)

lemma sqrt_sum_sq_eq (x y c : ℝ) (hc : 0 ≤ c) (h : x * x + y * y = c * c) :
    Real.sqrt (x * x + y * y) = c := by
  rw [h, Real.sqrt_mul_self hc]

/-- The rescaled vector `(vx/s*m, vy/s*m)` has squared norm `m * m` when
`s = sqrt (vx*vx + vy*vy)` is nonzero. -/
lemma rescale_sq_norm (vx vy m : ℝ) (hs : Real.sqrt (vx * vx + vy * vy) ≠ 0) :
    (vx / Real.sqrt (vx * vx + vy * vy) * m) * (vx / Real.sqrt (vx * vx + vy * vy) * m) +
      (vy / Real.sqrt (vx * vx + vy * vy) * m) * (vy / Real.sqrt (vx * vx + vy * vy) * m)
      = m * m := by
  have hq := mul_self_sqrt_sum vx vy
  set s := Real.sqrt (vx * vx + vy * vy) with hsdef
  have key : vx / s * m * (vx / s * m) + vy / s * m * (vy / s * m)
      = (vx * vx + vy * vy) / (s * s) * (m * m) := by ring
  rw [key, ← hq, div_self (mul_ne_zero hs hs), one_mul]

/-! ## clampSpeed lemmas (for C6 and the speed invariant) -/

lemma clampSpeed_norm_le (vx vy : ℝ) :
    Real.sqrt ((clampSpeed vx vy).1 * (clampSpeed vx vy).1 +
      (clampSpeed vx vy).2 * (clampSpeed vx vy).2) ≤ MAX_SPEED := by
  unfold clampSpeed
  by_cases h : Real.sqrt (vx * vx + vy * vy) > MAX_SPEED
  · rw [if_pos h]
    have hs : Real.sqrt (vx * vx + vy * vy) ≠ 0 := by
      have : (0:ℝ) < MAX_SPEED := by norm_num [MAX_SPEED]
      exact ne_of_gt (lt_trans this h)
    simp only
    rw [rescale_sq_norm vx vy MAX_SPEED hs,
      Real.sqrt_mul_self (by norm_num [MAX_SPEED] : (0:ℝ) ≤ MAX_SPEED)]
  · rw [if_neg h]
    exact le_of_not_lt h

lemma clampSpeed_norm_eq_of_gt (vx vy : ℝ)
    (h : Real.sqrt (vx * vx + vy * vy) > MAX_SPEED) :
    Real.sqrt ((clampSpeed vx vy).1 * (clampSpeed vx vy).1 +
      (clampSpeed vx vy).2 * (clampSpeed vx vy).2) = MAX_SPEED := by
  unfold clampSpeed
  rw [if_pos h]
  have hs : Real.sqrt (vx * vx + vy * vy) ≠ 0 := by
    have : (0:ℝ) < MAX_SPEED := by norm_num [MAX_SPEED]
    exact ne_of_gt (lt_trans this h)
  simp only
  rw [rescale_sq_norm vx vy MAX_SPEED hs,
    Real.sqrt_mul_self (by norm_num [MAX_SPEED] : (0:ℝ) ≤ MAX_SPEED)]

lemma clampSpeed_scale (vx vy : ℝ) :
    ∃ c : ℝ, 0 < c ∧ c ≤ 1 ∧
      (clampSpeed vx vy).1 = c * vx ∧ (clampSpeed vx vy).2 = c * vy := by
  unfold clampSpeed
  by_cases h : Real.sqrt (vx * vx + vy * vy) > MAX_SPEED
  · rw [if_pos h]
    have hM : (0:ℝ) < MAX_SPEED := by norm_num [MAX_SPEED]
    have hs : 0 < Real.sqrt (vx * vx + vy * vy) := lt_trans hM h
    refine ⟨MAX_SPEED / Real.sqrt (vx * vx + vy * vy), div_pos hM hs, ?_, by ring, by ring⟩
    rw [div_le_one hs]
    exact le_of_lt h
  · rw [if_neg h]
    exact ⟨1, by norm_num, by norm_num, by ring, by ring⟩

/-! ## wallConstrain lemmas (for C1 and the speed invariant) -/

lemma wallConstrain_dist_le (x y vx vy : ℝ) :
    Real.sqrt ((wallConstrain x y vx vy).x * (wallConstrain x y vx vy).x +
      (wallConstrain x y vx vy).y * (wallConstrain x y vx vy).y) ≤ max_dist := by
  unfold wallConstrain
  by_cases h : Real.sqrt (x * x + y * y) > max_dist
  · rw [if_pos h]
    have hmd : (0:ℝ) < max_dist := by norm_num [max_dist, TUBE_R, BALL_R]
    have hs : Real.sqrt (x * x + y * y) ≠ 0 := ne_of_gt (lt_trans hmd h)
    simp only
    rw [rescale_sq_norm x y max_dist hs, Real.sqrt_mul_self (le_of_lt hmd)]
  · rw [if_neg h]
    exact le_of_not_lt h

lemma wallConstrain_proj_of_gt (x y vx vy : ℝ)
    (h : Real.sqrt (x * x + y * y) > max_dist) :
    (wallConstrain x y vx vy).x = x / Real.sqrt (x * x + y * y) * max_dist ∧
    (wallConstrain x y vx vy).y = y / Real.sqrt (x * x + y * y) * max_dist ∧
    Real.sqrt ((wallConstrain x y vx vy).x * (wallConstrain x y vx vy).x +
      (wallConstrain x y vx vy).y * (wallConstrain x y vx vy).y) = max_dist := by
  have hmd : (0:ℝ) < max_dist := by norm_num [max_dist, TUBE_R, BALL_R]
  have hs : Real.sqrt (x * x + y * y) ≠ 0 := ne_of_gt (lt_trans hmd h)
  unfold wallConstrain
  rw [if_pos h]
  refine ⟨rfl, rfl, ?_⟩
  simp only
  rw [rescale_sq_norm x y max_dist hs, Real.sqrt_mul_self (le_of_lt hmd)]

/-- Wall reflection preserves the squared speed; the subsequent `* 0.5`
halves it, so the post-wall speed never exceeds the pre-wall speed. -/
lemma wallConstrain_speed_le (x y vx vy b : ℝ)
    (hb : 0 ≤ b)
    (hv : Real.sqrt (vx * vx + vy * vy) ≤ b) :
    Real.sqrt ((wallConstrain x y vx vy).vx * (wallConstrain x y vx vy).vx +
      (wallConstrain x y vx vy).vy * (wallConstrain x y vx vy).vy) ≤ b := by
  unfold wallConstrain
  by_cases h : Real.sqrt (x * x + y * y) > max_dist
  · rw [if_pos h]
    have hmd : (0:ℝ) < max_dist := by norm_num [max_dist, TUBE_R, BALL_R]
    have hs : Real.sqrt (x * x + y * y) ≠ 0 := ne_of_gt (lt_trans hmd h)
    have hq := mul_self_sqrt_sum x y
    set s := Real.sqrt (x * x + y * y) with hsdef
    set nx := x / s with hnx
    set ny := y / s with hny
    have hn : nx * nx + ny * ny = 1 := by
      rw [hnx, hny]
      field_simp
      linarith [hq]
    set dot := vx * nx + vy * ny with hdot
    have hrefl : (vx - 2 * dot * nx) * (vx - 2 * dot * nx) +
        (vy - 2 * dot * ny) * (vy - 2 * dot * ny) = vx * vx + vy * vy := by
      rw [hdot]
      linear_combination (4 * (vx * nx + vy * ny) ^ 2) * hn
    simp only
    have hhalf : ((vx - 2 * dot * nx) * 0.5) * ((vx - 2 * dot * nx) * 0.5) +
        ((vy - 2 * dot * ny) * 0.5) * ((vy - 2 * dot * ny) * 0.5)
        ≤ vx * vx + vy * vy := by
      have hq4 : ((vx - 2 * dot * nx) * 0.5) * ((vx - 2 * dot * nx) * 0.5) +
          ((vy - 2 * dot * ny) * 0.5) * ((vy - 2 * dot * ny) * 0.5)
          = ((vx - 2 * dot * nx) * (vx - 2 * dot * nx) +
             (vy - 2 * dot * ny) * (vy - 2 * dot * ny)) / 4 := by ring
      rw [hq4, hrefl]
      linarith [mul_self_nonneg vx, mul_self_nonneg vy]
    calc Real.sqrt (((vx - 2 * dot * nx) * 0.5) * ((vx - 2 * dot * nx) * 0.5) +
        ((vy - 2 * dot * ny) * 0.5) * ((vy - 2 * dot * ny) * 0.5))
        ≤ Real.sqrt (vx * vx + vy * vy) := Real.sqrt_le_sqrt hhalf
      _ ≤ b := hv
  · rw [if_neg h]
    exact hv

/-- Post-physics speed is at most `MAX_SPEED` on every tick. -/
lemma ballPhase_speed_le (s : KState) (ax ay : ℝ) :
    Real.sqrt ((ballPhase s ax ay).vx * (ballPhase s ax ay).vx +
      (ballPhase s ax ay).vy * (ballPhase s ax ay).vy) ≤ MAX_SPEED := by
  unfold ballPhase
  exact wallConstrain_speed_le _ _ _ _ _ (by norm_num [MAX_SPEED]) (clampSpeed_norm_le _ _)

lemma ballPhase_dist_le (s : KState) (ax ay : ℝ) :
    Real.sqrt ((ballPhase s ax ay).x * (ballPhase s ax ay).x +
      (ballPhase s ax ay).y * (ballPhase s ax ay).y) ≤ max_dist := by
  unfold ballPhase
  exact wallConstrain_dist_le _ _ _ _

/-! ## Projection lemmas for `stepFull` -/

lemma stepFull_ball_x (s : KState) (ax ay : ℝ) (now : ℕ) :
    (stepFull s ax ay now).1.ball_x = (ballPhase s ax ay).x := rfl

lemma stepFull_ball_y (s : KState) (ax ay : ℝ) (now : ℕ) :
    (stepFull s ax ay now).1.ball_y = (ballPhase s ax ay).y := rfl

/-! ## Claim C1: boundary invariant -/

/-- Claim C1: after every tick the ball's distance from the enclosure center
is at most `max_dist = TUBE_R - BALL_R - 4 = 51`; whenever the integrated
position exceeds this bound, the wall constraint radially projects it back
onto the boundary circle (where its distance is exactly `max_dist`). -/
theorem boundary_invariant_holds :
    (∀ (s : KState) (ax ay : ℝ) (now : ℕ),
      Real.sqrt ((stepFull s ax ay now).1.ball_x * (stepFull s ax ay now).1.ball_x +
        (stepFull s ax ay now).1.ball_y * (stepFull s ax ay now).1.ball_y) ≤ max_dist) ∧
    max_dist = 51 ∧
    (∀ x y vx vy : ℝ, Real.sqrt (x * x + y * y) > max_dist →
      (wallConstrain x y vx vy).x = x / Real.sqrt (x * x + y * y) * max_dist ∧
      (wallConstrain x y vx vy).y = y / Real.sqrt (x * x + y * y) * max_dist ∧
      Real.sqrt ((wallConstrain x y vx vy).x * (wallConstrain x y vx vy).x +
        (wallConstrain x y vx vy).y * (wallConstrain x y vx vy).y) = max_dist) := by
  refine ⟨fun s ax ay now => ?_, by norm_num [max_dist, TUBE_R, BALL_R],
    fun x y vx vy h => wallConstrain_proj_of_gt x y vx vy h⟩
  rw [stepFull_ball_x, stepFull_ball_y]
  exact ballPhase_dist_le s ax ay

/-- Witness for C1: a concrete step keeps the ball inside the boundary, and a
ball integrated to `(0,-60)` (distance 60 > 51) is projected back onto the
boundary circle. -/
theorem boundary_invariant_holds_witness :
    Real.sqrt ((stepFull sZero 0 0 0).1.ball_x * (stepFull sZero 0 0 0).1.ball_x +
      (stepFull sZero 0 0 0).1.ball_y * (stepFull sZero 0 0 0).1.ball_y) ≤ max_dist ∧
    Real.sqrt ((wallConstrain 0 (-60) 0 0).x * (wallConstrain 0 (-60) 0 0).x +
      (wallConstrain 0 (-60) 0 0).y * (wallConstrain 0 (-60) 0 0).y) = max_dist := by
  have h60 : Real.sqrt ((0:ℝ) * 0 + (-60) * (-60)) > max_dist := by
    have : Real.sqrt ((0:ℝ) * 0 + (-60) * (-60)) = 60 :=
      sqrt_sum_sq_eq 0 (-60) 60 (by norm_num) (by norm_num)
    rw [this]
    norm_num [max_dist, TUBE_R, BALL_R]
  exact ⟨boundary_invariant_holds.1 sZero 0 0 0,
    (boundary_invariant_holds.2.2 0 (-60) 0 0 h60).2.2⟩

/-! ## Claim C6: speed clamp -/

/-- Claim C6: the post-clamp velocity magnitude is at most `MAX_SPEED = 20`;
the clamp only rescales the vector by a positive factor at most 1 (so the
direction is preserved), and when the pre-clamp magnitude exceeds the cap the
result has magnitude exactly `MAX_SPEED`. -/
theorem speed_clamp_bound :
    (∀ vx vy : ℝ,
      Real.sqrt ((clampSpeed vx vy).1 * (clampSpeed vx vy).1 +
        (clampSpeed vx vy).2 * (clampSpeed vx vy).2) ≤ MAX_SPEED) ∧
    (∀ vx vy : ℝ, ∃ c : ℝ, 0 < c ∧ c ≤ 1 ∧
      (clampSpeed vx vy).1 = c * vx ∧ (clampSpeed vx vy).2 = c * vy) ∧
    (∀ vx vy : ℝ, Real.sqrt (vx * vx + vy * vy) > MAX_SPEED →
      Real.sqrt ((clampSpeed vx vy).1 * (clampSpeed vx vy).1 +
        (clampSpeed vx vy).2 * (clampSpeed vx vy).2) = MAX_SPEED) := by
  exact ⟨clampSpeed_norm_le, clampSpeed_scale, clampSpeed_norm_eq_of_gt⟩

/-- Witness for C6: the vector `(0,25)` (magnitude 25 > 20) is clamped to
magnitude exactly `MAX_SPEED`. -/
theorem speed_clamp_bound_witness :
    Real.sqrt ((clampSpeed 0 25).1 * (clampSpeed 0 25).1 +
      (clampSpeed 0 25).2 * (clampSpeed 0 25).2) = MAX_SPEED := by
  have h25 : Real.sqrt ((0:ℝ) * 0 + 25 * 25) > MAX_SPEED := by
    have : Real.sqrt ((0:ℝ) * 0 + 25 * 25) = 25 :=
      sqrt_sum_sq_eq 0 25 25 (by norm_num) (by norm_num)
    rw [this]
    norm_num [MAX_SPEED]
  exact speed_clamp_bound.2.2 0 25 h25

/-! ## Claim C2: strike velocity formula -/

lemma noteVelocity_le (s : ℝ) : noteVelocity s ≤ 127 := by
  unfold noteVelocity
  split
  · exact le_refl 127
  · omega

lemma noteVelocity_eq_of_range (s : ℝ) (h0 : 0 ≤ s) (h1 : s ≤ MAX_SPEED) :
    noteVelocity s = min 127 (Int.toNat ⌊(30:ℝ) + s * 5⌋) := by
  have hM : s ≤ 20 := by rw [MAX_SPEED] at h1; exact h1
  have hlo : (30:ℤ) ≤ ⌊(30:ℝ) + s * 5⌋ := by
    apply Int.le_floor.mpr
    push_cast
    linarith
  have hhi : ⌊(30:ℝ) + s * 5⌋ ≤ 130 := by
    have hle := Int.floor_le ((30:ℝ) + s * 5)
    have : ((⌊(30:ℝ) + s * 5⌋ : ℤ) : ℝ) ≤ 130 := by linarith
    exact_mod_cast this
  unfold noteVelocity
  rw [Int.emod_eq_of_lt (by omega) (by omega)]
  split <;> omega

lemma noteVelocity_ge_of_range (s : ℝ) (h0 : 0 ≤ s) (h1 : s ≤ MAX_SPEED) :
    30 ≤ noteVelocity s := by
  have hM : s ≤ 20 := by rw [MAX_SPEED] at h1; exact h1
  have hlo : (30:ℤ) ≤ ⌊(30:ℝ) + s * 5⌋ := by
    apply Int.le_floor.mpr
    push_cast
    linarith
  have hhi : ⌊(30:ℝ) + s * 5⌋ ≤ 130 := by
    have hle := Int.floor_le ((30:ℝ) + s * 5)
    have : ((⌊(30:ℝ) + s * 5⌋ : ℤ) : ℝ) ≤ 130 := by linarith
    exact_mod_cast this
  unfold noteVelocity
  rw [Int.emod_eq_of_lt (by omega) (by omega)]
  split <;> omega

lemma noteVelocity_at_max : noteVelocity MAX_SPEED = 127 := by
  have h130 : (30:ℝ) + MAX_SPEED * 5 = ((130:ℤ) : ℝ) := by
    norm_num [MAX_SPEED]
  unfold noteVelocity
  rw [h130, Int.floor_intCast]
  decide

/-- Claim C2: for speeds in the reachable range `[0, MAX_SPEED]` the emitted
MIDI velocity equals `min 127 (30 + speed * 5)` (the narrowing cast truncates
the float to an integer); a ball moving at exactly `MAX_SPEED = 20` produces
velocity `min 127 130 = 127`; and the result always lies in the valid MIDI
range `[0,127]`. -/
theorem strike_velocity_formula :
    (∀ s : ℝ, 0 ≤ s → s ≤ MAX_SPEED →
      noteVelocity s = min 127 (Int.toNat ⌊(30:ℝ) + s * 5⌋)) ∧
    noteVelocity MAX_SPEED = 127 ∧
    (∀ s : ℝ, noteVelocity s ≤ 127) :=
  ⟨noteVelocity_eq_of_range, noteVelocity_at_max, noteVelocity_le⟩

/-- Witness for C2: at impact speed 10 the emitted velocity is
`min 127 80 = 80`. -/
theorem strike_velocity_formula_witness :
    (0:ℝ) ≤ 10 ∧ noteVelocity 10 = min 127 (Int.toNat ⌊(30:ℝ) + 10 * 5⌋) :=
  ⟨by norm_num, strike_velocity_formula.1 10 (by norm_num) (by norm_num [MAX_SPEED])⟩

/-! ## Shape lemmas for `processRod` -/

lemma processRod_of_not_hit (c : Fin 4) (now : ℕ) (x y : ℝ) (st : RodLoopSt) (i : Fin 8)
    (h : ¬ strikeQ now st.rod_last_hit x y i) :
    processRod c now x y st i = st := by
  simp only [processRod]
  rw [if_neg h]

lemma processRod_events_of_hit (c : Fin 4) (now : ℕ) (x y : ℝ) (st : RodLoopSt) (i : Fin 8)
    (h : strikeQ now st.rod_last_hit x y i) :
    (processRod c now x y st i).events = st.events ++
      [⟨i, chime_notes c i,
        noteVelocity (Real.sqrt (st.ball_vx * st.ball_vx + st.ball_vy * st.ball_vy))⟩] := by
  simp only [processRod]
  rw [if_pos h]
  split <;> rfl

lemma processRod_lastHit_of_hit (c : Fin 4) (now : ℕ) (x y : ℝ) (st : RodLoopSt) (i : Fin 8)
    (h : strikeQ now st.rod_last_hit x y i) :
    (processRod c now x y st i).rod_last_hit = Function.update st.rod_last_hit i now := by
  simp only [processRod]
  rw [if_pos h]
  split <;> rfl

lemma processRod_glow_of_hit (c : Fin 4) (now : ℕ) (x y : ℝ) (st : RodLoopSt) (i : Fin 8)
    (h : strikeQ now st.rod_last_hit x y i) :
    (processRod c now x y st i).rod_glow = Function.update st.rod_glow i 15 := by
  simp only [processRod]
  rw [if_pos h]
  split <;> rfl

lemma processRod_vel_of_hit_far (c : Fin 4) (now : ℕ) (x y : ℝ) (st : RodLoopSt) (i : Fin 8)
    (h : strikeQ now st.rod_last_hit x y i) (hd : rodDist x y i > 0.1) :
    (processRod c now x y st i).ball_vx = (x - rod_fx i) / rodDist x y i * ROD_BOUNCE ∧
    (processRod c now x y st i).ball_vy = (y - rod_fy i) / rodDist x y i * ROD_BOUNCE := by
  simp only [processRod]
  rw [if_pos h, if_pos hd]
  exact ⟨rfl, rfl⟩

lemma processRod_vel_of_hit_near (c : Fin 4) (now : ℕ) (x y : ℝ) (st : RodLoopSt) (i : Fin 8)
    (h : strikeQ now st.rod_last_hit x y i) (hd : ¬ rodDist x y i > 0.1) :
    (processRod c now x y st i).ball_vx = st.ball_vx ∧
    (processRod c now x y st i).ball_vy = st.ball_vy := by
  simp only [processRod]
  rw [if_pos h, if_neg hd]
  exact ⟨rfl, rfl⟩

lemma processRod_events_len (c : Fin 4) (now : ℕ) (x y : ℝ) (st : RodLoopSt) (i : Fin 8) :
    (processRod c now x y st i).events.length ≤ st.events.length + 1 := by
  by_cases h : strikeQ now st.rod_last_hit x y i
  · rw [processRod_events_of_hit c now x y st i h, List.length_append]
    norm_num
  · rw [processRod_of_not_hit c now x y st i h]
    omega

/-- After a bounce the ball speed is exactly `ROD_BOUNCE = 2`. -/
lemma processRod_speed_two (c : Fin 4) (now : ℕ) (x y : ℝ) (st : RodLoopSt) (i : Fin 8)
    (h : strikeQ now st.rod_last_hit x y i) (hd : rodDist x y i > 0.1) :
    Real.sqrt ((processRod c now x y st i).ball_vx * (processRod c now x y st i).ball_vx +
      (processRod c now x y st i).ball_vy * (processRod c now x y st i).ball_vy)
      = ROD_BOUNCE := by
  obtain ⟨hvx, hvy⟩ := processRod_vel_of_hit_far c now x y st i h hd
  rw [hvx, hvy]
  have hne : Real.sqrt ((x - rod_fx i) * (x - rod_fx i) + (y - rod_fy i) * (y - rod_fy i)) ≠ 0 := by
    have : (0:ℝ) < rodDist x y i := lt_trans (by norm_num) hd
    unfold rodDist at this
    exact ne_of_gt this
  unfold rodDist
  rw [rescale_sq_norm (x - rod_fx i) (y - rod_fy i) ROD_BOUNCE hne,
    Real.sqrt_mul_self (by norm_num [ROD_BOUNCE])]

lemma processRod_speed_le (c : Fin 4) (now : ℕ) (x y : ℝ) (st : RodLoopSt) (i : Fin 8)
    (hsp : Real.sqrt (st.ball_vx * st.ball_vx + st.ball_vy * st.ball_vy) ≤ MAX_SPEED) :
    Real.sqrt ((processRod c now x y st i).ball_vx * (processRod c now x y st i).ball_vx +
      (processRod c now x y st i).ball_vy * (processRod c now x y st i).ball_vy)
      ≤ MAX_SPEED := by
  by_cases h : strikeQ now st.rod_last_hit x y i
  · by_cases hd : rodDist x y i > 0.1
    · rw [processRod_speed_two c now x y st i h hd]
      norm_num [ROD_BOUNCE, MAX_SPEED]
    · obtain ⟨hvx, hvy⟩ := processRod_vel_of_hit_near c now x y st i h hd
      rw [hvx, hvy]
      exact hsp
  · rw [processRod_of_not_hit c now x y st i h]
    exact hsp

lemma processRod_glow_le (c : Fin 4) (now : ℕ) (x y : ℝ) (st : RodLoopSt) (i : Fin 8)
    (hg : ∀ j, st.rod_glow j ≤ 15) :
    ∀ j, (processRod c now x y st i).rod_glow j ≤ 15 := by
  intro j
  by_cases h : strikeQ now st.rod_last_hit x y i
  · rw [processRod_glow_of_hit c now x y st i h, Function.update_apply]
    split
    · norm_num
    · exact hg j
  · rw [processRod_of_not_hit c now x y st i h]
    exact hg j

lemma processRod_events_mono (c : Fin 4) (now : ℕ) (x y : ℝ) (st : RodLoopSt) (i : Fin 8)
    (e : StrikeEvent) (he : e ∈ st.events) :
    e ∈ (processRod c now x y st i).events := by
  by_cases h : strikeQ now st.rod_last_hit x y i
  · rw [processRod_events_of_hit c now x y st i h]
    exact List.mem_append_left _ he
  · rw [processRod_of_not_hit c now x y st i h]
    exact he

/-! ## Fold lemmas over the rod list -/

lemma rodFold_events_mono (c : Fin 4) (now : ℕ) (x y : ℝ) :
    ∀ (l : List (Fin 8)) (st : RodLoopSt) (e : StrikeEvent), e ∈ st.events →
      e ∈ (l.foldl (processRod c now x y) st).events := by
  intro l
  induction l with
  | nil => intro st e he; exact he
  | cons i t ih =>
    intro st e he
    exact ih _ e (processRod_events_mono c now x y st i e he)

lemma rodFold_speed_events_inv (c : Fin 4) (now : ℕ) (x y : ℝ) :
    ∀ (l : List (Fin 8)) (st : RodLoopSt),
      Real.sqrt (st.ball_vx * st.ball_vx + st.ball_vy * st.ball_vy) ≤ MAX_SPEED →
      (∀ e ∈ st.events, 30 ≤ e.vel ∧ e.vel ≤ 127) →
      (∀ e ∈ (l.foldl (processRod c now x y) st).events, 30 ≤ e.vel ∧ e.vel ≤ 127) := by
  intro l
  induction l with
  | nil => intro st _ hev; exact hev
  | cons i t ih =>
    intro st hsp hev
    refine ih _ (processRod_speed_le c now x y st i hsp) ?_
    intro e he
    by_cases h : strikeQ now st.rod_last_hit x y i
    · rw [processRod_events_of_hit c now x y st i h] at he
      rcases List.mem_append.mp he with hl | hr
      · exact hev e hl
      · have heq := List.mem_singleton.mp hr
        subst heq
        have h0 : (0:ℝ) ≤ Real.sqrt (st.ball_vx * st.ball_vx + st.ball_vy * st.ball_vy) :=
          Real.sqrt_nonneg _
        exact ⟨noteVelocity_ge_of_range _ h0 hsp, noteVelocity_le _⟩
    · rw [processRod_of_not_hit c now x y st i h] at he
      exact hev e he

lemma rodFold_glow_le (c : Fin 4) (now : ℕ) (x y : ℝ) :
    ∀ (l : List (Fin 8)) (st : RodLoopSt),
      (∀ j, st.rod_glow j ≤ 15) →
      ∀ j, (l.foldl (processRod c now x y) st).rod_glow j ≤ 15 := by
  intro l
  induction l with
  | nil => intro st hg; exact hg
  | cons i t ih =>
    intro st hg
    exact ih _ (processRod_glow_le c now x y st i hg)

/-! ## Projection lemmas for `stepFull`, continued -/

lemma stepFull_events (s : KState) (ax ay : ℝ) (now : ℕ) :
    (stepFull s ax ay now).2 =
      (rodPass s.current_chime now (ballPhase s ax ay).x (ballPhase s ax ay).y
        (ballPhase s ax ay).vx (ballPhase s ax ay).vy s.rod_last_hit s.rod_glow).events := rfl

lemma stepFull_glow (s : KState) (ax ay : ℝ) (now : ℕ) :
    (stepFull s ax ay now).1.rod_glow =
      drawUpdateGlow (rodPass s.current_chime now (ballPhase s ax ay).x (ballPhase s ax ay).y
        (ballPhase s ax ay).vx (ballPhase s ax ay).vy s.rod_last_hit s.rod_glow).rod_glow := rfl

lemma drawUpdateGlow_le (g : Fin 8 → ℕ) (i : Fin 8) : drawUpdateGlow g i ≤ g i := by
  unfold drawUpdateGlow
  split <;> omega

/-! ## Claim C3: debounce -/

/-- Claim C3: two collision-detection passes for the same rod less than the
debounce window (`ROD_DEBOUNCE = 80` ms) apart produce at most one strike
event for that rod; and whenever a rod triggers, its recorded last-hit
timestamp is set to `now`, which is strictly greater than the previous
timestamp. -/
theorem rod_debounce_single_strike (c : Fin 4) (now1 now2 : ℕ) (x1 y1 x2 y2 : ℝ)
    (st : RodLoopSt) (i : Fin 8)
    (h12 : now1 ≤ now2) (hlt : now2 - now1 < ROD_DEBOUNCE) :
    (processRod c now2 x2 y2 (processRod c now1 x1 y1 st i) i).events.length ≤
      st.events.length + 1 ∧
    (∀ (now : ℕ) (x y : ℝ) (st2 : RodLoopSt),
      strikeQ now st2.rod_last_hit x y i →
        (processRod c now x y st2 i).rod_last_hit i = now ∧ st2.rod_last_hit i < now) := by
  constructor
  · by_cases h1 : strikeQ now1 st.rod_last_hit x1 y1 i
    · have hlast : (processRod c now1 x1 y1 st i).rod_last_hit i = now1 := by
        rw [processRod_lastHit_of_hit c now1 x1 y1 st i h1, Function.update_same]
      have h2 : ¬ strikeQ now2 (processRod c now1 x1 y1 st i).rod_last_hit x2 y2 i := by
        intro h2
        have := h2.2
        rw [hlast] at this
        unfold ROD_DEBOUNCE at this hlt
        omega
      rw [processRod_of_not_hit c now2 x2 y2 _ i h2,
        processRod_events_of_hit c now1 x1 y1 st i h1, List.length_append]
      norm_num
    · rw [processRod_of_not_hit c now1 x1 y1 st i h1]
      exact processRod_events_len c now2 x2 y2 st i
  · intro now x y st2 h
    constructor
    · rw [processRod_lastHit_of_hit c now x y st2 i h, Function.update_same]
    · have := h.2
      unfold ROD_DEBOUNCE at this
      omega

/-- Witness for C3: two passes 50 ms apart over rod 0 from a fresh state add
at most one event. -/
theorem rod_debounce_single_strike_witness :
    (processRod 0 1050 0 (-51) (processRod 0 1000 0 (-51) rls0 0) 0).events.length ≤
      rls0.events.length + 1 :=
  (rod_debounce_single_strike 0 1000 1050 0 (-51) 0 (-51) rls0 0
    (by norm_num) (by norm_num [ROD_DEBOUNCE])).1

/-! ## Claim C8: guarded bounce normalization -/

/-- Claim C8: in the rod-collision response, the rod-to-ball vector is
normalized only under the minimum-distance guard `d > 0.1`, so the division
in the bounce computation never has a zero denominator; when the guard fails
the velocity overwrite is skipped for that rod (the strike itself still
fires). -/
theorem rod_bounce_guard (c : Fin 4) (now : ℕ) (x y : ℝ) (st : RodLoopSt) (i : Fin 8)
    (h : strikeQ now st.rod_last_hit x y i) :
    (rodDist x y i ≤ 0.1 →
      (processRod c now x y st i).ball_vx = st.ball_vx ∧
      (processRod c now x y st i).ball_vy = st.ball_vy ∧
      (processRod c now x y st i).events = st.events ++
        [⟨i, chime_notes c i,
          noteVelocity (Real.sqrt (st.ball_vx * st.ball_vx + st.ball_vy * st.ball_vy))⟩]) ∧
    (rodDist x y i > 0.1 → rodDist x y i ≠ 0 ∧
      (processRod c now x y st i).ball_vx = (x - rod_fx i) / rodDist x y i * ROD_BOUNCE ∧
      (processRod c now x y st i).ball_vy = (y - rod_fy i) / rodDist x y i * ROD_BOUNCE) := by
  constructor
  · intro hle
    obtain ⟨h1, h2⟩ := processRod_vel_of_hit_near c now x y st i h (not_lt.mpr hle)
    exact ⟨h1, h2, processRod_events_of_hit c now x y st i h⟩
  · intro hgt
    obtain ⟨h1, h2⟩ := processRod_vel_of_hit_far c now x y st i h hgt
    exact ⟨ne_of_gt (lt_trans (by norm_num) hgt), h1, h2⟩

lemma rodDist_self_zero : rodDist (rod_fx 0) (rod_fy 0) 0 = 0 := by
  unfold rodDist
  simp

/-- Witness for C8: with the ball exactly on rod 0 (`d = 0 ≤ 0.1`) the rod
fires but the velocity overwrite is skipped. -/
theorem rod_bounce_guard_witness :
    (processRod 0 1000 (rod_fx 0) (rod_fy 0) rls0 0).ball_vx = rls0.ball_vx ∧
    (processRod 0 1000 (rod_fx 0) (rod_fy 0) rls0 0).ball_vy = rls0.ball_vy := by
  have hstrike : strikeQ 1000 rls0.rod_last_hit (rod_fx 0) (rod_fy 0) 0 := by
    refine ⟨?_, ?_⟩
    · rw [rodDist_self_zero]
      norm_num [HIT_DIST]
    · norm_num [rls0, ROD_DEBOUNCE]
  have h := (rod_bounce_guard 0 1000 (rod_fx 0) (rod_fy 0) rls0 0 hstrike).1
    (by rw [rodDist_self_zero]; norm_num)
  exact ⟨h.1, h.2.1⟩

/-! ## Claim C10: glow counter range -/

/-- Claim C10: the per-rod glow counter stays in `[0,15]` (in `ℕ`, hence
never below 0): it is set to exactly 15 on a strike, decremented by 1 per
frame only when strictly positive, and left alone otherwise, so every tick
preserves the bound `rod_glow i ≤ 15`. -/
theorem glow_counter_range (s : KState) (ax ay : ℝ) (now : ℕ)
    (h : ∀ i, s.rod_glow i ≤ 15) :
    (∀ i, (stepFull s ax ay now).1.rod_glow i ≤ 15) ∧
    (∀ (c : Fin 4) (x y : ℝ) (st : RodLoopSt) (i : Fin 8),
      strikeQ now st.rod_last_hit x y i →
        (processRod c now x y st i).rod_glow i = 15) ∧
    (∀ (g : Fin 8 → ℕ) (i : Fin 8),
      (0 < g i → drawUpdateGlow g i = g i - 1) ∧
      (g i = 0 → drawUpdateGlow g i = g i)) := by
  refine ⟨?_, ?_, ?_⟩
  · intro i
    rw [stepFull_glow]
    refine le_trans (drawUpdateGlow_le _ i) ?_
    unfold rodPass
    exact rodFold_glow_le _ now _ _ _ _ h i
  · intro c x y st i hq
    rw [processRod_glow_of_hit c now x y st i hq, Function.update_same]
  · intro g i
    constructor
    · intro h0
      unfold drawUpdateGlow
      rw [if_pos h0]
    · intro h0
      unfold drawUpdateGlow
      rw [if_neg (by omega)]

/-- Witness for C10: stepping the all-zero state keeps rod 0's glow within
the bound. -/
theorem glow_counter_range_witness :
    (stepFull sZero 0 0 0).1.rod_glow 0 ≤ 15 :=
  (glow_counter_range sZero 0 0 0 (fun _ => Nat.zero_le _)).1 0

/-! ## Claim C9 (generic part): emitted velocity range -/

lemma rodPass_events_inv (c : Fin 4) (now : ℕ) (x y vx vy : ℝ) (lh g : Fin 8 → ℕ)
    (hsp : Real.sqrt (vx * vx + vy * vy) ≤ MAX_SPEED) :
    ∀ e ∈ (rodPass c now x y vx vy lh g).events, 30 ≤ e.vel ∧ e.vel ≤ 127 := by
  unfold rodPass
  exact rodFold_speed_events_inv c now x y _ _ hsp (fun e he => absurd he (List.not_mem_nil e))

/-- Claim C9: every emitted note-on event carries a velocity of at least 30
(the base constant) and at most 127 — no strike is ever silent, and since
the clamped impact speed never exceeds `MAX_SPEED = 20` the intermediate
`30 + speed*5 ≤ 130` fits in 8 bits, so the narrowing cast cannot wrap. -/
theorem emitted_velocity_range (s : KState) (ax ay : ℝ) (now : ℕ) (e : StrikeEvent)
    (he : e ∈ (stepFull s ax ay now).2) :
    30 ≤ e.vel ∧ e.vel ≤ 127 := by
  rw [stepFull_events] at he
  exact rodPass_events_inv _ _ _ _ _ _ _ _ (ballPhase_speed_le s ax ay) e he

/-! ## Claim C7: ball at rest at the center never strikes -/

lemma rodDist_center (i : Fin 8) : rodDist 0 0 i = ROD_ORBIT := by
  unfold rodDist rod_fx rod_fy
  have h1 : (0 - Real.cos (rodAngle i) * ROD_ORBIT) * (0 - Real.cos (rodAngle i) * ROD_ORBIT) +
      (0 - Real.sin (rodAngle i) * ROD_ORBIT) * (0 - Real.sin (rodAngle i) * ROD_ORBIT)
      = (Real.sin (rodAngle i) ^ 2 + Real.cos (rodAngle i) ^ 2) * (ROD_ORBIT * ROD_ORBIT) := by
    ring
  rw [h1, Real.sin_sq_add_cos_sq, one_mul,
    Real.sqrt_mul_self (by norm_num [ROD_ORBIT] : (0:ℝ) ≤ ROD_ORBIT)]

lemma hfar_center : ∀ i : Fin 8, ¬ rodDist (0:ℝ) 0 i < HIT_DIST := by
  intro i
  rw [rodDist_center]
  norm_num [ROD_ORBIT, HIT_DIST]

lemma rodFold_id_of_far (c : Fin 4) (now : ℕ) (x y : ℝ)
    (hfar : ∀ i : Fin 8, ¬ rodDist x y i < HIT_DIST) :
    ∀ (l : List (Fin 8)) (st : RodLoopSt), l.foldl (processRod c now x y) st = st := by
  intro l
  induction l with
  | nil => intro st; rfl
  | cons i t ih =>
    intro st
    rw [List.foldl_cons, processRod_of_not_hit c now x y st i (fun hq => hfar i hq.1)]
    exact ih st

lemma rodPass_id_of_far (c : Fin 4) (now : ℕ) (x y vx vy : ℝ) (lh g : Fin 8 → ℕ)
    (hfar : ∀ i : Fin 8, ¬ rodDist x y i < HIT_DIST) :
    rodPass c now x y vx vy lh g = ⟨vx, vy, lh, g, []⟩ := by
  unfold rodPass
  exact rodFold_id_of_far c now x y hfar _ _

lemma clampSpeed_zero : clampSpeed 0 0 = (0, 0) := by
  have h0 : ¬ (Real.sqrt ((0:ℝ) * 0 + 0 * 0) > MAX_SPEED) := by
    rw [show ((0:ℝ) * 0 + 0 * 0) = 0 by norm_num, Real.sqrt_zero]
    norm_num [MAX_SPEED]
  simp only [clampSpeed]
  rw [if_neg h0]

lemma wallConstrain_zero : wallConstrain 0 0 0 0 = ⟨0, 0, 0, 0⟩ := by
  have h0 : ¬ (Real.sqrt ((0:ℝ) * 0 + 0 * 0) > max_dist) := by
    rw [show ((0:ℝ) * 0 + 0 * 0) = 0 by norm_num, Real.sqrt_zero]
    norm_num [max_dist, TUBE_R, BALL_R]
  simp only [wallConstrain]
  rw [if_neg h0]

lemma ballPhase_sZero : ballPhase sZero 0 0 = ⟨0, 0, 0, 0⟩ := by
  have e1 : (sZero.ball_vx - ((0:ℝ) - sZero.cal_ax) * GRAVITY_SCALE * 0.02) * FRICTION = 0 := by
    norm_num [sZero, GRAVITY_SCALE, FRICTION]
  have e2 : (sZero.ball_vy + ((0:ℝ) - sZero.cal_ay) * GRAVITY_SCALE * 0.02) * FRICTION = 0 := by
    norm_num [sZero, GRAVITY_SCALE, FRICTION]
  simp only [ballPhase]
  rw [e1, e2, clampSpeed_zero]
  show wallConstrain (sZero.ball_x + 0) (sZero.ball_y + 0) 0 0 = ⟨0, 0, 0, 0⟩
  rw [show sZero.ball_x + (0:ℝ) = 0 by norm_num [sZero],
    show sZero.ball_y + (0:ℝ) = 0 by norm_num [sZero]]
  exact wallConstrain_zero

lemma drawUpdateGlow_zero : drawUpdateGlow sZero.rod_glow = sZero.rod_glow := by
  funext i
  simp [drawUpdateGlow, sZero]

lemma step_sZero (now : ℕ) : stepFull sZero 0 0 now = (sZero, []) := by
  have hrp : ∀ (vx vy : ℝ) (lh g : Fin 8 → ℕ),
      rodPass sZero.current_chime now 0 0 vx vy lh g = ⟨vx, vy, lh, g, []⟩ :=
    fun vx vy lh g => rodPass_id_of_far _ now 0 0 vx vy lh g hfar_center
  simp only [stepFull, ballPhase_sZero]
  rw [hrp]
  rw [Prod.mk.injEq]
  refine ⟨?_, rfl⟩
  rw [KState.ext_iff]
  refine ⟨rfl, rfl, rfl, rfl, rfl, rfl, rfl, rfl, ?_⟩
  exact drawUpdateGlow_zero

lemma run_eq_sZero : ∀ n : ℕ, run n = sZero := by
  intro n
  induction n with
  | zero => rfl
  | succ k ih =>
    show (stepFull (run k) 0 0 (20 * (k + 1))).1 = sZero
    rw [ih, step_sZero]

/-- Claim C7: starting from the ball at rest at the center with calibrated
tilt `(0,0)` on every tick, the ball's position and velocity stay `(0,0)` at
every tick (in particular through 100 ticks), no tick ever emits a strike
event, and the distance from the ball to every rod stays `ROD_ORBIT = 55`,
which is at least the hit threshold `HIT_DIST = 24`. -/
theorem center_rest_no_strikes :
    (∀ n : ℕ, (run n).ball_x = 0 ∧ (run n).ball_y = 0 ∧
      (run n).ball_vx = 0 ∧ (run n).ball_vy = 0) ∧
    (∀ n : ℕ, (stepFull (run n) 0 0 (20 * (n + 1))).2 = []) ∧
    (∀ i : Fin 8, rodDist (run 100).ball_x (run 100).ball_y i = ROD_ORBIT ∧
      HIT_DIST ≤ rodDist (run 100).ball_x (run 100).ball_y i) := by
  refine ⟨?_, ?_, ?_⟩
  · intro n
    rw [run_eq_sZero n]
    exact ⟨rfl, rfl, rfl, rfl⟩
  · intro n
    rw [run_eq_sZero n]
    exact congrArg Prod.snd (step_sZero (20 * (n + 1)))
  · intro i
    rw [run_eq_sZero 100]
    show rodDist 0 0 i = ROD_ORBIT ∧ HIT_DIST ≤ rodDist 0 0 i
    rw [rodDist_center i]
    norm_num [ROD_ORBIT, HIT_DIST]

/-! ## Interval bounds for the rod coordinates

The source's `3.14159f` differs from `π` by less than `3e-6`, and `cos`/`sin`
are 1-Lipschitz, so each rod coordinate is within `55 * 4e-6 < 0.01` of the
exact ring position. -/

lemma abs_cos_sub_cos_le (a b : ℝ) : |Real.cos a - Real.cos b| ≤ |a - b| := by
  rw [Real.cos_sub_cos]
  have h1 : |Real.sin ((a + b) / 2)| ≤ 1 := Real.abs_sin_le_one _
  have h2 : |Real.sin ((a - b) / 2)| ≤ |(a - b) / 2| := Real.abs_sin_le_abs
  calc |(-2) * Real.sin ((a + b) / 2) * Real.sin ((a - b) / 2)|
      = 2 * |Real.sin ((a + b) / 2)| * |Real.sin ((a - b) / 2)| := by
        rw [abs_mul, abs_mul]
        norm_num
    _ ≤ 2 * 1 * |(a - b) / 2| := by
        apply mul_le_mul _ h2 (abs_nonneg _) (by norm_num)
        nlinarith [abs_nonneg (Real.sin ((a + b) / 2))]
    _ = |a - b| := by
        rw [abs_div]
        norm_num
        ring

lemma abs_sin_sub_sin_le (a b : ℝ) : |Real.sin a - Real.sin b| ≤ |a - b| := by
  rw [Real.sin_sub_sin]
  have h1 : |Real.cos ((a + b) / 2)| ≤ 1 := Real.abs_cos_le_one _
  have h2 : |Real.sin ((a - b) / 2)| ≤ |(a - b) / 2| := Real.abs_sin_le_abs
  calc |2 * Real.sin ((a - b) / 2) * Real.cos ((a + b) / 2)|
      = 2 * |Real.sin ((a - b) / 2)| * |Real.cos ((a + b) / 2)| := by
        rw [abs_mul, abs_mul]
        norm_num
    _ ≤ 2 * |(a - b) / 2| * 1 := by
        apply mul_le_mul _ h1 (abs_nonneg _) (by positivity)
        nlinarith [abs_nonneg (Real.sin ((a - b) / 2))]
    _ = |a - b| := by
        rw [abs_div]
        norm_num
        ring

lemma pi_approx : |Real.pi - 3.14159| ≤ 0.000003 := by
  have h1 := Real.pi_gt_d6
  have h2 := Real.pi_lt_d6
  rw [abs_le]
  norm_num at h1 h2 ⊢
  constructor <;> linarith

lemma angle_close_of (a t c : ℝ) (hc : |c| ≤ (5:ℝ)/4)
    (h : a - t = c * (Real.pi - 3.14159)) : |a - t| ≤ 0.000004 := by
  have hp : |Real.pi - 3.14159| ≤ 0.000003 := pi_approx
  rw [h, abs_mul]
  calc |c| * |Real.pi - 3.14159| ≤ (5/4) * 0.000003 :=
        mul_le_mul hc hp (abs_nonneg _) (by norm_num)
    _ ≤ 0.000004 := by norm_num

lemma sqrt_two_gt : (1.41421 : ℝ) < Real.sqrt 2 := by
  rw [show (1.41421 : ℝ) < Real.sqrt 2 ↔ (1.41421:ℝ) ^ 2 < 2 from Real.lt_sqrt (by norm_num)]
  norm_num

lemma sqrt_two_lt : Real.sqrt 2 < 1.41422 := by
  rw [Real.sqrt_lt' (by norm_num)]
  norm_num

lemma cos_close (i : Fin 8) (t : ℝ) (h : |rodAngle i - t| ≤ 0.000004) :
    |Real.cos (rodAngle i) - Real.cos t| ≤ 0.000004 :=
  le_trans (abs_cos_sub_cos_le _ _) h

lemma sin_close (i : Fin 8) (t : ℝ) (h : |rodAngle i - t| ≤ 0.000004) :
    |Real.sin (rodAngle i) - Real.sin t| ≤ 0.000004 :=
  le_trans (abs_sin_sub_sin_le _ _) h

lemma rodAngle_0_close : |rodAngle 0 - (-(Real.pi / 2))| ≤ 0.000004 := by
  apply angle_close_of _ _ (1/2) (by rw [abs_le]; constructor <;> norm_num)
  unfold rodAngle
  rw [show ((0 : Fin 8).val) = 0 from rfl]
  push_cast
  ring

lemma rodAngle_1_close : |rodAngle 1 - (-(Real.pi / 4))| ≤ 0.000004 := by
  apply angle_close_of _ _ (1/4) (by rw [abs_le]; constructor <;> norm_num)
  unfold rodAngle
  rw [show ((1 : Fin 8).val) = 1 from rfl]
  push_cast
  ring

lemma rodAngle_2_eq : rodAngle 2 = 0 := by
  unfold rodAngle
  rw [show ((2 : Fin 8).val) = 2 from rfl]
  push_cast
  ring

lemma rodAngle_3_close : |rodAngle 3 - Real.pi / 4| ≤ 0.000004 := by
  apply angle_close_of _ _ (-(1/4)) (by rw [abs_le]; constructor <;> norm_num)
  unfold rodAngle
  rw [show ((3 : Fin 8).val) = 3 from rfl]
  push_cast
  ring

lemma rodAngle_4_close : |rodAngle 4 - Real.pi / 2| ≤ 0.000004 := by
  apply angle_close_of _ _ (-(1/2)) (by rw [abs_le]; constructor <;> norm_num)
  unfold rodAngle
  rw [show ((4 : Fin 8).val) = 4 from rfl]
  push_cast
  ring

lemma rodAngle_5_close : |rodAngle 5 - 3 * Real.pi / 4| ≤ 0.000004 := by
  apply angle_close_of _ _ (-(3/4)) (by rw [abs_le]; constructor <;> norm_num)
  unfold rodAngle
  rw [show ((5 : Fin 8).val) = 5 from rfl]
  push_cast
  ring

lemma rodAngle_6_close : |rodAngle 6 - Real.pi| ≤ 0.000004 := by
  apply angle_close_of _ _ (-1) (by rw [abs_le]; constructor <;> norm_num)
  unfold rodAngle
  rw [show ((6 : Fin 8).val) = 6 from rfl]
  push_cast
  ring

lemma rodAngle_7_close : |rodAngle 7 - 5 * Real.pi / 4| ≤ 0.000004 := by
  apply angle_close_of _ _ (-(5/4)) (by rw [abs_le]; constructor <;> norm_num)
  unfold rodAngle
  rw [show ((7 : Fin 8).val) = 7 from rfl]
  push_cast
  ring

lemma rodfx0_bounds : -0.01 ≤ rod_fx 0 ∧ rod_fx 0 ≤ 0.01 := by
  have hc := cos_close 0 _ rodAngle_0_close
  rw [show Real.cos (-(Real.pi / 2)) = 0 by rw [Real.cos_neg, Real.cos_pi_div_two]] at hc
  rw [abs_le] at hc
  unfold rod_fx
  rw [show ROD_ORBIT = (55:ℝ) from rfl]
  constructor <;> nlinarith [hc.1, hc.2]

lemma rodfy0_bounds : -55.01 ≤ rod_fy 0 ∧ rod_fy 0 ≤ -54.99 := by
  have hc := sin_close 0 _ rodAngle_0_close
  rw [show Real.sin (-(Real.pi / 2)) = -1 by rw [Real.sin_neg, Real.sin_pi_div_two]] at hc
  rw [abs_le] at hc
  unfold rod_fy
  rw [show ROD_ORBIT = (55:ℝ) from rfl]
  constructor <;> nlinarith [hc.1, hc.2]

lemma rodfx1_bounds : 38.88 ≤ rod_fx 1 ∧ rod_fx 1 ≤ 38.90 := by
  have hc := cos_close 1 _ rodAngle_1_close
  rw [show Real.cos (-(Real.pi / 4)) = Real.sqrt 2 / 2 by
    rw [Real.cos_neg, Real.cos_pi_div_four]] at hc
  rw [abs_le] at hc
  have hl := sqrt_two_gt
  have hu := sqrt_two_lt
  unfold rod_fx
  rw [show ROD_ORBIT = (55:ℝ) from rfl]
  constructor <;> nlinarith [hc.1, hc.2]

lemma rodfy1_bounds : -38.90 ≤ rod_fy 1 ∧ rod_fy 1 ≤ -38.88 := by
  have hc := sin_close 1 _ rodAngle_1_close
  rw [show Real.sin (-(Real.pi / 4)) = -(Real.sqrt 2 / 2) by
    rw [Real.sin_neg, Real.sin_pi_div_four]] at hc
  rw [abs_le] at hc
  have hl := sqrt_two_gt
  have hu := sqrt_two_lt
  unfold rod_fy
  rw [show ROD_ORBIT = (55:ℝ) from rfl]
  constructor <;> nlinarith [hc.1, hc.2]

lemma rodfx2_eq : rod_fx 2 = ROD_ORBIT := by
  unfold rod_fx
  rw [rodAngle_2_eq, Real.cos_zero, one_mul]

lemma rodfy3_ge : 38.88 ≤ rod_fy 3 := by
  have hc := sin_close 3 _ rodAngle_3_close
  rw [Real.sin_pi_div_four] at hc
  rw [abs_le] at hc
  have hl := sqrt_two_gt
  unfold rod_fy
  rw [show ROD_ORBIT = (55:ℝ) from rfl]
  nlinarith [hc.1, hc.2]

lemma rodfy4_ge : 54.99 ≤ rod_fy 4 := by
  have hc := sin_close 4 _ rodAngle_4_close
  rw [Real.sin_pi_div_two] at hc
  rw [abs_le] at hc
  unfold rod_fy
  rw [show ROD_ORBIT = (55:ℝ) from rfl]
  nlinarith [hc.1, hc.2]

lemma rodfy5_ge : 38.88 ≤ rod_fy 5 := by
  have hc := sin_close 5 _ rodAngle_5_close
  rw [show Real.sin (3 * Real.pi / 4) = Real.sqrt 2 / 2 by
    rw [show 3 * Real.pi / 4 = Real.pi - Real.pi / 4 by ring, Real.sin_pi_sub,
      Real.sin_pi_div_four]] at hc
  rw [abs_le] at hc
  have hl := sqrt_two_gt
  unfold rod_fy
  rw [show ROD_ORBIT = (55:ℝ) from rfl]
  nlinarith [hc.1, hc.2]

lemma rodfx6_le : rod_fx 6 ≤ -54.99 := by
  have hc := cos_close 6 _ rodAngle_6_close
  rw [Real.cos_pi] at hc
  rw [abs_le] at hc
  unfold rod_fx
  rw [show ROD_ORBIT = (55:ℝ) from rfl]
  nlinarith [hc.1, hc.2]

lemma rodfx7_le : rod_fx 7 ≤ -38.88 := by
  have hc := cos_close 7 _ rodAngle_7_close
  rw [show Real.cos (5 * Real.pi / 4) = -(Real.sqrt 2 / 2) by
    rw [show 5 * Real.pi / 4 = Real.pi + Real.pi / 4 by ring, Real.cos_add,
      Real.cos_pi, Real.sin_pi, Real.cos_pi_div_four]
    ring] at hc
  rw [abs_le] at hc
  have hl := sqrt_two_gt
  unfold rod_fx
  rw [show ROD_ORBIT = (55:ℝ) from rfl]
  nlinarith [hc.1, hc.2]

/-! ## Distance comparison helpers -/

lemma rodDist_lt_of_sq (x y : ℝ) (i : Fin 8) (b : ℝ) (hb : 0 < b)
    (h : (x - rod_fx i) * (x - rod_fx i) + (y - rod_fy i) * (y - rod_fy i) < b ^ 2) :
    rodDist x y i < b := by
  unfold rodDist
  rw [Real.sqrt_lt' hb]
  exact h

lemma rodDist_gt_of_sq (x y : ℝ) (i : Fin 8) (b : ℝ) (hb : 0 ≤ b)
    (h : b ^ 2 < (x - rod_fx i) * (x - rod_fx i) + (y - rod_fy i) * (y - rod_fy i)) :
    b < rodDist x y i := by
  unfold rodDist
  rw [Real.lt_sqrt hb]
  exact h

lemma rodDist_ge_abs_dx (x y : ℝ) (i : Fin 8) : |x - rod_fx i| ≤ rodDist x y i := by
  unfold rodDist
  rw [← Real.sqrt_mul_self_eq_abs (x - rod_fx i)]
  exact Real.sqrt_le_sqrt (by nlinarith [mul_self_nonneg (y - rod_fy i)])

lemma rodDist_ge_abs_dy (x y : ℝ) (i : Fin 8) : |y - rod_fy i| ≤ rodDist x y i := by
  unfold rodDist
  rw [← Real.sqrt_mul_self_eq_abs (y - rod_fy i)]
  exact Real.sqrt_le_sqrt (by nlinarith [mul_self_nonneg (x - rod_fx i)])

lemma not_hit_of_dx (x y : ℝ) (i : Fin 8) (h : HIT_DIST ≤ |x - rod_fx i|) :
    ¬ rodDist x y i < HIT_DIST :=
  not_lt.mpr (le_trans h (rodDist_ge_abs_dx x y i))

lemma not_hit_of_dy (x y : ℝ) (i : Fin 8) (h : HIT_DIST ≤ |y - rod_fy i|) :
    ¬ rodDist x y i < HIT_DIST :=
  not_lt.mpr (le_trans h (rodDist_ge_abs_dy x y i))

/-! ## Scenario: ball at `(0,-51)`, 4 px from rod 0 -/

lemma hit0_51 : rodDist 0 (-51) 0 < HIT_DIST := by
  obtain ⟨hx1, hx2⟩ := rodfx0_bounds
  obtain ⟨hy1, hy2⟩ := rodfy0_bounds
  apply rodDist_lt_of_sq _ _ _ _ (by norm_num [HIT_DIST])
  rw [show HIT_DIST = (24:ℝ) from rfl]
  have h1 : ((0:ℝ) - rod_fx 0) * (0 - rod_fx 0) ≤ 0.0001 := by nlinarith
  have h2 : ((-51:ℝ) - rod_fy 0) * ((-51) - rod_fy 0) ≤ 16.0801 := by nlinarith
  nlinarith

lemma noteVelocity_zero : noteVelocity 0 = 30 := by
  unfold noteVelocity
  rw [show (30:ℝ) + 0 * 5 = ((30:ℤ) : ℝ) by norm_num, Int.floor_intCast]
  decide

lemma finRange8 : List.finRange 8 = [0, 1, 2, 3, 4, 5, 6, 7] := by decide

/-- If rod 0 qualifies, the note-on event for rod 0 (computed from the
tick-start ball speed) is among the tick's emitted events. -/
lemma rodPass_head_event (c : Fin 4) (now : ℕ) (x y vx vy : ℝ) (lh g : Fin 8 → ℕ)
    (h : strikeQ now lh x y 0) :
    (⟨0, chime_notes c 0, noteVelocity (Real.sqrt (vx * vx + vy * vy))⟩ : StrikeEvent) ∈
      (rodPass c now x y vx vy lh g).events := by
  unfold rodPass
  rw [finRange8, List.foldl_cons]
  apply rodFold_events_mono
  rw [processRod_events_of_hit c now x y ⟨vx, vy, lh, g, []⟩ 0 h]
  simp

lemma wallConstrain_51 : wallConstrain 0 (-51) 0 0 = ⟨0, -51, 0, 0⟩ := by
  have h0 : ¬ (Real.sqrt ((0:ℝ) * 0 + (-51) * (-51)) > max_dist) := by
    rw [sqrt_sum_sq_eq 0 (-51) 51 (by norm_num) (by norm_num)]
    norm_num [max_dist, TUBE_R, BALL_R]
  simp only [wallConstrain]
  rw [if_neg h0]

lemma ballPhase_s9 : ballPhase s9 0 0 = ⟨0, -51, 0, 0⟩ := by
  have e1 : (s9.ball_vx - ((0:ℝ) - s9.cal_ax) * GRAVITY_SCALE * 0.02) * FRICTION = 0 := by
    norm_num [s9, GRAVITY_SCALE, FRICTION]
  have e2 : (s9.ball_vy + ((0:ℝ) - s9.cal_ay) * GRAVITY_SCALE * 0.02) * FRICTION = 0 := by
    norm_num [s9, GRAVITY_SCALE, FRICTION]
  simp only [ballPhase]
  rw [e1, e2, clampSpeed_zero]
  show wallConstrain (s9.ball_x + 0) (s9.ball_y + 0) 0 0 = ⟨0, -51, 0, 0⟩
  rw [show s9.ball_x + (0:ℝ) = 0 by norm_num [s9],
    show s9.ball_y + (0:ℝ) = -51 by norm_num [s9]]
  exact wallConstrain_51

lemma strike9 : strikeQ 1000 s9.rod_last_hit 0 (-51) 0 :=
  ⟨hit0_51, by norm_num [s9, ROD_DEBOUNCE]⟩

/-- Witness for C9: with the ball resting 4 px from rod 0, the tick at
`now = 1000` emits the note-on event `(rod 0, note 55, velocity 30)`, whose
velocity lies in `[30, 127]`. -/
theorem emitted_velocity_range_witness :
    ((⟨0, 55, 30⟩ : StrikeEvent) ∈ (stepFull s9 0 0 1000).2) ∧
    30 ≤ (⟨0, 55, 30⟩ : StrikeEvent).vel ∧ (⟨0, 55, 30⟩ : StrikeEvent).vel ≤ 127 := by
  have hmem : (⟨0, 55, 30⟩ : StrikeEvent) ∈ (stepFull s9 0 0 1000).2 := by
    rw [stepFull_events, ballPhase_s9]
    have h := rodPass_head_event s9.current_chime 1000 0 (-51) 0 0
      s9.rod_last_hit s9.rod_glow strike9
    have hev : (⟨0, chime_notes s9.current_chime 0,
        noteVelocity (Real.sqrt ((0:ℝ) * 0 + 0 * 0))⟩ : StrikeEvent) = ⟨0, 55, 30⟩ := by
      have h1 : chime_notes s9.current_chime 0 = 55 := rfl
      have h2 : noteVelocity (Real.sqrt ((0:ℝ) * 0 + 0 * 0)) = 30 := by
        rw [show (0:ℝ) * 0 + 0 * 0 = 0 by norm_num, Real.sqrt_zero, noteVelocity_zero]
      rw [h1, h2]
    rw [hev] at h
    exact h
  exact ⟨hmem, emitted_velocity_range s9 0 0 1000 ⟨0, 55, 30⟩ hmem⟩

/-! ## Claim C4: firing order and independence -/

lemma strikeQ_iff_of_agree (now : ℕ) (lh1 lh2 : Fin 8 → ℕ) (x y : ℝ) (i : Fin 8)
    (h : lh1 i = lh2 i) : strikeQ now lh1 x y i ↔ strikeQ now lh2 x y i := by
  unfold strikeQ
  rw [h]

/-- Characterization of the rod loop: the emitted `(rod, note)` pairs are
exactly the qualifying rods, in index order, where "qualifying" is judged
against the tick-start position and each rod's own pre-tick debounce state —
independent of what earlier rods did in the same tick. -/
lemma rodFold_events_map (c : Fin 4) (now : ℕ) (x y : ℝ) :
    ∀ (l : List (Fin 8)), l.Nodup →
      ∀ (st : RodLoopSt) (lh0 : Fin 8 → ℕ), (∀ i ∈ l, st.rod_last_hit i = lh0 i) →
      ((l.foldl (processRod c now x y) st).events).map (fun e => (e.rod, e.note)) =
        (st.events.map (fun e => (e.rod, e.note))) ++
          (l.filter (fun i => decide (strikeQ now lh0 x y i))).map
            (fun i => (i, chime_notes c i)) := by
  intro l
  induction l with
  | nil =>
    intro _ st lh0 _
    simp
  | cons i t ih =>
    intro hnd st lh0 hagree
    obtain ⟨hnotmem, hndt⟩ := List.nodup_cons.mp hnd
    have hagree_i : st.rod_last_hit i = lh0 i := hagree i (List.mem_cons_self i t)
    rw [List.foldl_cons]
    by_cases hq : strikeQ now lh0 x y i
    · have hq' : strikeQ now st.rod_last_hit x y i :=
        (strikeQ_iff_of_agree now st.rod_last_hit lh0 x y i hagree_i).mpr hq
      have hagree' : ∀ j ∈ t, (processRod c now x y st i).rod_last_hit j = lh0 j := by
        intro j hj
        rw [processRod_lastHit_of_hit c now x y st i hq',
          Function.update_noteq (fun hji => hnotmem (by rw [← hji]; exact hj))]
        exact hagree j (List.mem_cons_of_mem i hj)
      rw [ih hndt _ lh0 hagree', processRod_events_of_hit c now x y st i hq',
        List.filter_cons_of_pos (by simpa using hq)]
      simp
    · have hq' : ¬ strikeQ now st.rod_last_hit x y i :=
        fun h => hq ((strikeQ_iff_of_agree now st.rod_last_hit lh0 x y i hagree_i).mp h)
      have hagree' : ∀ j ∈ t, st.rod_last_hit j = lh0 j :=
        fun j hj => hagree j (List.mem_cons_of_mem i hj)
      rw [processRod_of_not_hit c now x y st i hq',
        List.filter_cons_of_neg (by simpa using hq)]
      exact ih hndt st lh0 hagree'

/-- Claim C4 (amended): when several rods are within the hit threshold in the
same tick, all qualifying rods fire in index order (rod 0 first, rod 7
last), each emitting its own note-on event; whether a rod fires, and which
pitch it emits, are judged against the tick-start position and the rod's own
pre-tick debounce timestamp, hence do not depend on whether earlier rods
fired in the same tick.  (The emitted *velocity* of a later strike can
depend on an earlier strike's bounce — see the counterexample.) -/
theorem rods_fire_in_index_order (s : KState) (ax ay : ℝ) (now : ℕ) :
    ((stepFull s ax ay now).2).map (fun e => (e.rod, e.note)) =
      ((List.finRange 8).filter (fun i =>
        decide (strikeQ now s.rod_last_hit (ballPhase s ax ay).x (ballPhase s ax ay).y i))).map
        (fun i => (i, chime_notes s.current_chime i)) := by
  rw [stepFull_events]
  unfold rodPass
  rw [rodFold_events_map s.current_chime now (ballPhase s ax ay).x (ballPhase s ax ay).y
    (List.finRange 8) (List.nodup_finRange 8)
    ⟨(ballPhase s ax ay).vx, (ballPhase s ax ay).vy, s.rod_last_hit, s.rod_glow, []⟩
    s.rod_last_hit (fun _ _ => rfl)]
  simp

/-! ## Claim C4 counterexample: a later rod's velocity depends on an earlier
strike's bounce -/

lemma noteVelocity_ten : noteVelocity 10 = 80 := by
  unfold noteVelocity
  rw [show (30:ℝ) + 10 * 5 = ((80:ℤ) : ℝ) by norm_num, Int.floor_intCast]
  decide

lemma noteVelocity_two : noteVelocity 2 = 40 := by
  unfold noteVelocity
  rw [show (30:ℝ) + 2 * 5 = ((40:ℤ) : ℝ) by norm_num, Int.floor_intCast]
  decide

lemma hit0_1947 : rodDist 19 (-47) 0 < HIT_DIST := by
  obtain ⟨hx1, hx2⟩ := rodfx0_bounds
  obtain ⟨hy1, hy2⟩ := rodfy0_bounds
  apply rodDist_lt_of_sq _ _ _ _ (by norm_num [HIT_DIST])
  rw [show HIT_DIST = (24:ℝ) from rfl]
  have h1 : ((19:ℝ) - rod_fx 0) * (19 - rod_fx 0) ≤ 361.3801 := by nlinarith
  have h2 : ((-47:ℝ) - rod_fy 0) * ((-47) - rod_fy 0) ≤ 64.1601 := by nlinarith
  nlinarith

lemma far0_1947 : rodDist 19 (-47) 0 > 0.1 := by
  obtain ⟨hx1, hx2⟩ := rodfx0_bounds
  apply rodDist_gt_of_sq _ _ _ _ (by norm_num)
  have h1 : (360:ℝ) ≤ (19 - rod_fx 0) * (19 - rod_fx 0) := by nlinarith
  nlinarith [mul_self_nonneg ((-47:ℝ) - rod_fy 0)]

lemma hit1_1947 : rodDist 19 (-47) 1 < HIT_DIST := by
  obtain ⟨hx1, hx2⟩ := rodfx1_bounds
  obtain ⟨hy1, hy2⟩ := rodfy1_bounds
  apply rodDist_lt_of_sq _ _ _ _ (by norm_num [HIT_DIST])
  rw [show HIT_DIST = (24:ℝ) from rfl]
  have h1 : ((19:ℝ) - rod_fx 1) * (19 - rod_fx 1) ≤ 396.01 := by nlinarith
  have h2 : ((-47:ℝ) - rod_fy 1) * ((-47) - rod_fy 1) ≤ 65.9344 := by nlinarith
  nlinarith

lemma nf2_1947 : ¬ rodDist 19 (-47) 2 < HIT_DIST := by
  apply not_hit_of_dx
  rw [rodfx2_eq, show (19:ℝ) - ROD_ORBIT = -36 by norm_num [ROD_ORBIT], abs_neg,
    abs_of_nonneg (by norm_num : (0:ℝ) ≤ 36)]
  norm_num [HIT_DIST]

lemma nf3_1947 : ¬ rodDist 19 (-47) 3 < HIT_DIST := by
  apply not_hit_of_dy
  rw [show HIT_DIST = (24:ℝ) from rfl]
  exact le_abs.mpr (Or.inr (by linarith [rodfy3_ge]))

lemma nf4_1947 : ¬ rodDist 19 (-47) 4 < HIT_DIST := by
  apply not_hit_of_dy
  rw [show HIT_DIST = (24:ℝ) from rfl]
  exact le_abs.mpr (Or.inr (by linarith [rodfy4_ge]))

lemma nf5_1947 : ¬ rodDist 19 (-47) 5 < HIT_DIST := by
  apply not_hit_of_dy
  rw [show HIT_DIST = (24:ℝ) from rfl]
  exact le_abs.mpr (Or.inr (by linarith [rodfy5_ge]))

lemma nf6_1947 : ¬ rodDist 19 (-47) 6 < HIT_DIST := by
  apply not_hit_of_dx
  rw [show HIT_DIST = (24:ℝ) from rfl]
  exact le_abs.mpr (Or.inl (by linarith [rodfx6_le]))

lemma nf7_1947 : ¬ rodDist 19 (-47) 7 < HIT_DIST := by
  apply not_hit_of_dx
  rw [show HIT_DIST = (24:ℝ) from rfl]
  exact le_abs.mpr (Or.inl (by linarith [rodfx7_le]))

lemma hfar_tail_1947 :
    ∀ i ∈ ([2, 3, 4, 5, 6, 7] : List (Fin 8)), ¬ rodDist 19 (-47) i < HIT_DIST := by
  intro i hi
  simp only [List.mem_cons, List.not_mem_nil, or_false] at hi
  rcases hi with rfl | rfl | rfl | rfl | rfl | rfl
  exacts [nf2_1947, nf3_1947, nf4_1947, nf5_1947, nf6_1947, nf7_1947]

lemma rodFold_id_of_far_mem (c : Fin 4) (now : ℕ) (x y : ℝ) :
    ∀ (l : List (Fin 8)), (∀ i ∈ l, ¬ rodDist x y i < HIT_DIST) →
      ∀ st : RodLoopSt, l.foldl (processRod c now x y) st = st := by
  intro l
  induction l with
  | nil => intro _ st; rfl
  | cons i t ih =>
    intro hfar st
    rw [List.foldl_cons,
      processRod_of_not_hit c now x y st i (fun hq => hfar i (List.mem_cons_self i t) hq.1)]
    exact ih (fun j hj => hfar j (List.mem_cons_of_mem i hj)) st

lemma clampSpeed_ten : clampSpeed 10 0 = (10, 0) := by
  have h0 : ¬ (Real.sqrt ((10:ℝ) * 10 + 0 * 0) > MAX_SPEED) := by
    rw [sqrt_sum_sq_eq 10 0 10 (by norm_num) (by norm_num)]
    norm_num [MAX_SPEED]
  simp only [clampSpeed]
  rw [if_neg h0]

lemma wallConstrain_1947 : wallConstrain 19 (-47) 10 0 = ⟨19, -47, 10, 0⟩ := by
  have h0 : ¬ (Real.sqrt ((19:ℝ) * 19 + (-47) * (-47)) > max_dist) := by
    have hle : Real.sqrt ((19:ℝ) * 19 + (-47) * (-47)) ≤ 51 := by
      rw [show (19:ℝ) * 19 + (-47) * (-47) = 2570 by norm_num]
      calc Real.sqrt 2570 ≤ Real.sqrt (51 * 51) := Real.sqrt_le_sqrt (by norm_num)
        _ = 51 := Real.sqrt_mul_self (by norm_num)
    rw [show max_dist = (51:ℝ) by norm_num [max_dist, TUBE_R, BALL_R]]
    exact not_lt.mpr hle
  simp only [wallConstrain]
  rw [if_neg h0]

lemma ballPhase_c4 (s : KState) (h1 : s.ball_x = 9) (h2 : s.ball_y = -47)
    (h3 : s.ball_vx = 1000 / 97) (h4 : s.ball_vy = 0)
    (h5 : s.cal_ax = 0) (h6 : s.cal_ay = 0) :
    ballPhase s 0 0 = ⟨19, -47, 10, 0⟩ := by
  have e1 : (s.ball_vx - ((0:ℝ) - s.cal_ax) * GRAVITY_SCALE * 0.02) * FRICTION = 10 := by
    rw [h3, h5]
    norm_num [GRAVITY_SCALE, FRICTION]
  have e2 : (s.ball_vy + ((0:ℝ) - s.cal_ay) * GRAVITY_SCALE * 0.02) * FRICTION = 0 := by
    rw [h4, h6]
    norm_num [GRAVITY_SCALE, FRICTION]
  simp only [ballPhase]
  rw [e1, e2, clampSpeed_ten]
  show wallConstrain (s.ball_x + 10) (s.ball_y + 0) 10 0 = ⟨19, -47, 10, 0⟩
  rw [show s.ball_x + (10:ℝ) = 19 by rw [h1]; norm_num,
    show s.ball_y + (0:ℝ) = -47 by rw [h2]; norm_num]
  exact wallConstrain_1947

lemma eventsA : (stepFull c4A 0 0 1000).2 = [⟨0, 55, 80⟩, ⟨1, 60, 40⟩] := by
  rw [stepFull_events, ballPhase_c4 c4A rfl rfl rfl rfl rfl rfl]
  unfold rodPass
  rw [finRange8]
  show (List.foldl (processRod c4A.current_chime 1000 19 (-47))
      ⟨10, 0, c4A.rod_last_hit, c4A.rod_glow, []⟩ [0, 1, 2, 3, 4, 5, 6, 7]).events
    = [⟨0, 55, 80⟩, ⟨1, 60, 40⟩]
  set st0 : RodLoopSt := ⟨10, 0, c4A.rod_last_hit, c4A.rod_glow, []⟩ with hst0
  have hq0 : strikeQ 1000 st0.rod_last_hit 19 (-47) 0 := by
    refine ⟨hit0_1947, ?_⟩
    show 1000 - (0:ℕ) > ROD_DEBOUNCE
    decide
  have hlh1 : (processRod c4A.current_chime 1000 19 (-47) st0 0).rod_last_hit 1 = 0 := by
    rw [processRod_lastHit_of_hit _ _ _ _ _ _ hq0, Function.update_noteq (by decide)]
    rfl
  have hq1 : strikeQ 1000
      (processRod c4A.current_chime 1000 19 (-47) st0 0).rod_last_hit 19 (-47) 1 := by
    refine ⟨hit1_1947, ?_⟩
    rw [hlh1]
    decide
  have hsp0 : Real.sqrt (st0.ball_vx * st0.ball_vx + st0.ball_vy * st0.ball_vy) = 10 := by
    show Real.sqrt ((10:ℝ) * 10 + 0 * 0) = 10
    exact sqrt_sum_sq_eq 10 0 10 (by norm_num) (by norm_num)
  have hsp1 : Real.sqrt
      ((processRod c4A.current_chime 1000 19 (-47) st0 0).ball_vx *
        (processRod c4A.current_chime 1000 19 (-47) st0 0).ball_vx +
       (processRod c4A.current_chime 1000 19 (-47) st0 0).ball_vy *
        (processRod c4A.current_chime 1000 19 (-47) st0 0).ball_vy) = ROD_BOUNCE :=
    processRod_speed_two _ _ _ _ _ _ hq0 far0_1947
  rw [show ([0, 1, 2, 3, 4, 5, 6, 7] : List (Fin 8))
      = 0 :: 1 :: [2, 3, 4, 5, 6, 7] from rfl,
    List.foldl_cons, List.foldl_cons,
    rodFold_id_of_far_mem c4A.current_chime 1000 19 (-47) [2, 3, 4, 5, 6, 7] hfar_tail_1947,
    processRod_events_of_hit _ _ _ _ _ _ hq1,
    processRod_events_of_hit _ _ _ _ _ _ hq0,
    hsp0, noteVelocity_ten, hsp1, show ROD_BOUNCE = (2:ℝ) from rfl, noteVelocity_two]
  show (([] ++ [⟨0, chime_notes c4A.current_chime 0, 80⟩]) ++
    [⟨1, chime_notes c4A.current_chime 1, 40⟩] : List StrikeEvent)
    = [⟨0, 55, 80⟩, ⟨1, 60, 40⟩]
  rfl

lemma eventsB : (stepFull c4B 0 0 1000).2 = [⟨1, 60, 80⟩] := by
  rw [stepFull_events, ballPhase_c4 c4B rfl rfl rfl rfl rfl rfl]
  unfold rodPass
  rw [finRange8]
  show (List.foldl (processRod c4B.current_chime 1000 19 (-47))
      ⟨10, 0, c4B.rod_last_hit, c4B.rod_glow, []⟩ [0, 1, 2, 3, 4, 5, 6, 7]).events
    = [⟨1, 60, 80⟩]
  set st0 : RodLoopSt := ⟨10, 0, c4B.rod_last_hit, c4B.rod_glow, []⟩ with hst0
  have hnq0 : ¬ strikeQ 1000 st0.rod_last_hit 19 (-47) 0 := by
    intro h
    have h2 := h.2
    rw [show st0.rod_last_hit 0 = 950 from rfl] at h2
    norm_num [ROD_DEBOUNCE] at h2
  have hq1 : strikeQ 1000 st0.rod_last_hit 19 (-47) 1 := by
    refine ⟨hit1_1947, ?_⟩
    rw [show st0.rod_last_hit 1 = 0 from rfl]
    decide
  have hsp0 : Real.sqrt (st0.ball_vx * st0.ball_vx + st0.ball_vy * st0.ball_vy) = 10 := by
    show Real.sqrt ((10:ℝ) * 10 + 0 * 0) = 10
    exact sqrt_sum_sq_eq 10 0 10 (by norm_num) (by norm_num)
  rw [show ([0, 1, 2, 3, 4, 5, 6, 7] : List (Fin 8))
      = 0 :: 1 :: [2, 3, 4, 5, 6, 7] from rfl,
    List.foldl_cons, List.foldl_cons,
    processRod_of_not_hit _ _ _ _ _ _ hnq0,
    rodFold_id_of_far_mem c4B.current_chime 1000 19 (-47) [2, 3, 4, 5, 6, 7] hfar_tail_1947,
    processRod_events_of_hit _ _ _ _ _ _ hq1,
    hsp0, noteVelocity_ten]
  show (([] ++ [⟨1, chime_notes c4B.current_chime 1, 80⟩]) : List StrikeEvent) = [⟨1, 60, 80⟩]
  rfl

/-- Counterexample to C4 as stated: two tick states that agree on the ball,
the chime, and rod 1's debounce timestamp — differing only in rod 0's
last-hit time — both make rod 1 fire, but rod 1's emitted velocity is 40
when rod 0 fired first (its bounce rewrote the ball velocity to magnitude
`ROD_BOUNCE = 2`) and 80 when rod 0 was debounced.  A later strike's outcome
therefore depends on whether an earlier rod fired in the same tick. -/
theorem later_rod_velocity_differs :
    (stepFull c4A 0 0 1000).2 = [⟨0, 55, 80⟩, ⟨1, 60, 40⟩] ∧
    (stepFull c4B 0 0 1000).2 = [⟨1, 60, 80⟩] ∧
    c4A.ball_x = c4B.ball_x ∧ c4A.ball_y = c4B.ball_y ∧
    c4A.ball_vx = c4B.ball_vx ∧ c4A.ball_vy = c4B.ball_vy ∧
    c4A.cal_ax = c4B.cal_ax ∧ c4A.cal_ay = c4B.cal_ay ∧
    c4A.current_chime = c4B.current_chime ∧
    c4A.rod_last_hit 1 = c4B.rod_last_hit 1 :=
  ⟨eventsA, eventsB, rfl, rfl, rfl, rfl, rfl, rfl, rfl, rfl⟩

end KoshiChime
